import Mathlib

/-!
Verification of the local-to-remote synchronization pipeline of
`deploy-static-site` (src/lib.js), checked against its specification.

The JavaScript source is shallowly embedded as follows.

* External collaborators are passed in as explicit values: the glob walk is a
  function from a glob pattern to `Except error (List path)`, the filesystem
  metadata read (`fs.lstat`) is a function from a path to `Except error Stat`,
  and the remote store and MIME lookup never get reached by the code (see
  `executeTaskOnS3` below) so they need no model beyond the call record type.
* Node's `path` module is platform dependent; the embedding threads the
  platform separator `sep` ("/" on POSIX, "\" on Windows) through every
  function that the source routes through `path.relative` / `path.format`.
* Callback-style results are values: `done(err)` becomes an `Option`/`Except`
  value, and a thrown exception (the source dereferencing `undefined`) becomes
  an explicit `crash` constructor, distinct from every callback outcome.
* The `async` library's `mapLimit`/`eachLimit` combinators are embedded twice:
  their order-preserving value-level behaviour as list functions
  (`mapTasks`, `runPlanTasks`), and their scheduling behaviour as small-step
  transition systems (`SyncStep` for the two bounded phases, `ExecStep` for
  the fail-fast bounded executor), both gated on `MAX_PARALLEL`.
-/

/-- Embeds line 9 of src/lib.js: `var MAX_PARALLEL = 25;`, the fixed bound on
simultaneously outstanding network/stat operations. -/
def MAX_PARALLEL : Nat := 25

/-- Result of a successful `fs.lstat` call: the only part of the stat record
the source reads is `stat.isFile()`. -/
structure Stat where
  isFile : Bool
deriving DecidableEq

/-- The task object built by `makeLocalTask` (lines 21-25 of src/lib.js):
`{ type: "file", localPath: localPath, remotePath: path.relative(...) }`. -/
structure UploadTask where
  type : String
  localPath : String
  remotePath : String
deriving DecidableEq

/-- Helper for `pathRelative`: removes the first list from the front of the
second, returning the remainder, or `none` when the second list does not start
with the first. -/
def chopLeading : List Char → List Char → Option (List Char)
  | [], ys => some ys
  | _ :: _, [] => none
  | x :: xs, y :: ys => if x = y then chopLeading xs ys else none

/-- Models Node's `path.relative(fromP, toP)` for the cases this program
exercises, parameterized by the platform separator `sep` ("/" on POSIX,
"\" on Windows): the result is "" when the two paths are equal, and the
remainder of `toP` — still in the platform separator — when `toP` lies under
`fromP`. Node's `..`-insertion for unrelated paths is not exercised by the
source (every glob match lies under the root), so unrelated paths are
returned unchanged. -/
def pathRelative (sep fromP toP : String) : String :=
  if fromP = toP then ""
  else
    match chopLeading (fromP.data ++ sep.data) toP.data with
    | some rest => String.mk rest
    | none => toP

/-- Outcome of one `makeLocalTask` call. The source callback never passes an
error to `done`; its only outcomes are `done(null, task-or-undefined)` or an
uncaught exception. -/
inductive TaskResult
  | crash
  | ok (task : Option UploadTask)
deriving DecidableEq

/-- Embeds `makeLocalTask` (lines 17-27 of src/lib.js). `lstatR` is what
`fs.lstat(localPath, cb)` delivers to the callback: on failure Node passes
`(err, undefined)`, embedded as `Except.error`. The source never checks `err`
and immediately evaluates `stat.isFile()`; when `stat` is `undefined` that
member call throws a TypeError, embedded as `TaskResult.crash`. On success,
a non-file yields `done(null, undefined)` (no task) and a regular file yields
the task object with `remotePath = path.relative(rootPath, localPath)`. -/
def makeLocalTask (sep rootPath localPath : String) (lstatR : Except String Stat) : TaskResult :=
  match lstatR with
  | .error _ => .crash
  | .ok stat =>
    if stat.isFile then
      .ok (some { type := "file", localPath := localPath, remotePath := pathRelative sep rootPath localPath })
    else
      .ok none

/-- Outcome of `buildLocalExecutionPlan`: the glob walk may report an error
through `done(err)`; a stat failure crashes (see `makeLocalTask`); otherwise
`async.mapLimit` delivers one result per input path, in input order. -/
inductive PlanResult
  | crash
  | err (e : String)
  | ok (tasks : List (Option UploadTask))
deriving DecidableEq

/-- Value-level behaviour of `async.mapLimit(paths, MAX_PARALLEL,
makeLocalTask.bind(null, rootPath), done)` (line 41 of src/lib.js): one
`makeLocalTask` call per path, results collected in input order. `mapLimit`
does not drop `undefined` results, so skip entries stay in the list. A crash
in any iteratee is an uncaught exception for the whole run. -/
def mapTasks (sep rootPath : String) (fs : String → Except String Stat) : List String → PlanResult
  | [] => .ok []
  | p :: ps =>
    match makeLocalTask sep rootPath p (fs p) with
    | .crash => .crash
    | .ok t =>
      match mapTasks sep rootPath fs ps with
      | .ok ts => .ok (t :: ts)
      | r => r

/-- Embeds line 36 of src/lib.js: `path.format({ dir: rootPath, base:
searchPattern || "**" })`, which joins `dir` and `base` with the platform
separator, defaulting the pattern to `"**"` when empty. -/
def globPattern (sep rootPath searchPattern : String) : String :=
  rootPath ++ sep ++ (if searchPattern = "" then "**" else searchPattern)

/-- Embeds `buildLocalExecutionPlan` (lines 35-43 of src/lib.js). `glob` is
the filesystem-walk collaborator, mapping a glob expression to the matched
absolute paths or an error; `fs` is the per-path lstat collaborator. A glob
error is forwarded to `done`; otherwise the paths are translated by
`mapTasks`. -/
def buildLocalExecutionPlan (sep rootPath searchPattern : String)
    (glob : String → Except String (List String)) (fs : String → Except String Stat) : PlanResult :=
  match glob (globPattern sep rootPath searchPattern) with
  | .error e => .err e
  | .ok paths => mapTasks sep rootPath fs paths

/-- The per-path value `async.mapLimit` collects from `makeLocalTask` on a run
with no stat errors: `some` task for a regular file, `none` (the retained
`undefined` placeholder) otherwise. -/
def taskForPath (sep rootPath : String) (fs : String → Except String Stat) (p : String) : Option UploadTask :=
  match fs p with
  | .error _ => none
  | .ok stat =>
    if stat.isFile then
      some { type := "file", localPath := p, remotePath := pathRelative sep rootPath p }
    else
      none

/-- Number of matched paths whose metadata reports a regular file. -/
def countRegularFiles (fs : String → Except String Stat) (paths : List String) : Nat :=
  (paths.filter fun p =>
    match fs p with
    | .ok stat => stat.isFile
    | .error _ => false).length

/-- Argument record of an `s3.upload` call (lines 57-63 of src/lib.js).
`Body` records the local path handed to `fs.createReadStream`. -/
structure UploadCall where
  Bucket : String
  Key : String
  ACL : String
  ContentType : String
  Body : String
deriving DecidableEq

/-- Outcome of one `executeTaskOnS3` call: `completed err uploads` means the
callback `done` was invoked with `err` after issuing the recorded remote
calls; `crash uploads` means an uncaught exception was thrown after issuing
the recorded remote calls. -/
inductive ExecTaskResult
  | completed (err : Option String) (uploads : List UploadCall)
  | crash (uploads : List UploadCall)
deriving DecidableEq

/-- Embeds `executeTaskOnS3` (lines 52-68 of src/lib.js). A missing task
(`undefined` placeholder) or an empty `remotePath` returns `done()` at once
with no remote call. Otherwise the source executes
`var mime = mime.lookup(task.localPath);`: the `var` declaration hoists a
local `mime` binding over the module reference, so the initializer reads the
still-`undefined` local and the member call throws a TypeError before
`s3.upload` is ever reached — embedded as `crash []`. -/
def executeTaskOnS3 (bucketName : String) (task : Option UploadTask) : ExecTaskResult :=
  match task with
  | none => .completed none []
  | some t =>
    if t.remotePath = "" then .completed none []
    else .crash []

/-- Remote calls issued by one `executeTaskOnS3` outcome. -/
def uploadsOf : ExecTaskResult → List UploadCall
  | .completed _ u => u
  | .crash u => u

/-- Value-level behaviour of `async.eachLimit(tasks, MAX_PARALLEL,
executeTaskOnS3.bind(null, s3, bucketName), done)` (line 135 of src/lib.js):
one `executeTaskOnS3` outcome per plan entry. -/
def runPlanTasks (bucketName : String) (plan : List (Option UploadTask)) : List ExecTaskResult :=
  plan.map (executeTaskOnS3 bucketName)

/-- JSON-shaped values, enough for the policy documents the source builds. -/
inductive JVal
  | str (s : String)
  | arr (xs : List JVal)
  | obj (fields : List (String × JVal))

/-- Value bound to a field name in a JSON object, when present. -/
def jLookup : JVal → String → Option JVal
  | .obj fields, k => (fields.find? fun kv => kv.fst = k).map fun kv => kv.snd
  | _, _ => none

/-- Field names of a JSON object, in order. -/
def fieldNames : JVal → List String
  | .obj fields => fields.map fun kv => kv.fst
  | _ => []

/-- Embeds `createAnonReadStatement` (lines 74-92 of src/lib.js): the policy
document granting anonymous read, built verbatim from the bucket name. -/
def createAnonReadStatement (bucketName : String) : JVal :=
  .obj
    [("Version", .str "2012-10-17"),
     ("Statement", .arr
       [.obj
         [("Sid", .str "AddPerm"),
          ("Effect", .str "Allow"),
          ("Principal", .str "*"),
          ("Action", .arr [.str "s3:GetObject"]),
          ("Resource", .arr
            [.str ("arn:aws:s3:::" ++ bucketName ++ "/*"),
             .str ("arn:aws:s3:::" ++ bucketName ++ "/**/*")])]])]

/-- Argument record of the `s3.putBucketPolicy` call (lines 99-104 of
src/lib.js). The source serializes the statement with `JSON.stringify`;
the embedding carries the document itself, serialization being external
formatting with no further logic. -/
structure PolicyParams where
  Bucket : String
  Policy : JVal

/-- Embeds `createAnonReadPolicy` (lines 99-104 of src/lib.js). -/
def createAnonReadPolicy (bucketName : String) : PolicyParams :=
  { Bucket := bucketName, Policy := createAnonReadStatement bucketName }

/-- Embeds `configureWebsiteBucket` (lines 112-119 of src/lib.js):
`putPolicyR` is the remote store's answer to the single `putBucketPolicy`
call; an error is forwarded to `done(err)`, success is `done(null)` (the
website-hosting configuration is an explicit TODO in the source). -/
def configureWebsiteBucket (putPolicyR : Option String) : Option String :=
  putPolicyR

/-- How a callback-style function ends: its `done` callback is invoked with
an optional error, or it is never invoked at all, or the run crashes. -/
inductive CbOutcome
  | called (err : Option String)
  | notCalled
  | crashed
deriving DecidableEq

/-- Embeds `uploadDirToS3` (lines 129-137 of src/lib.js): build the plan,
forward a plan error to `done`, otherwise hand the task list to
`async.eachLimit`, whose final callback (the aggregate of the per-task
outcomes, abstracted as `execR`: `none` on success, first error otherwise;
`ExecStep` below refines this aggregate) is `done` itself. The Bool records
whether the upload phase was reached. -/
def uploadDirToS3 (sep rootPath dirSearchPattern : String)
    (glob : String → Except String (List String)) (fs : String → Except String Stat)
    (execR : List (Option UploadTask) → Option String) : Bool × CbOutcome :=
  match buildLocalExecutionPlan sep rootPath dirSearchPattern glob fs with
  | .crash => (false, .crashed)
  | .err e => (false, .called (some e))
  | .ok tasks => (true, .called (execR tasks))

/-- Trace of one `s3WebsiteFromDirectory` run: which phases were entered and
how the outer `done` callback ended. -/
structure OrchTrace where
  ranPolicy : Bool
  ranPlanBuild : Bool
  ranUpload : Bool
  outcome : CbOutcome
deriving DecidableEq

/-- Embeds `s3WebsiteFromDirectory` (lines 147-155 of src/lib.js): run
`configureWebsiteBucket`, on error call `done(err)` and stop; on success run
`uploadDirToS3`, whose callback calls `done(err)` on error but on success
only logs a debug line — the outer `done` is never invoked on full success. -/
def s3WebsiteFromDirectory (sep rootPath dirSearchPattern : String)
    (glob : String → Except String (List String)) (fs : String → Except String Stat)
    (execR : List (Option UploadTask) → Option String) (putPolicyR : Option String) : OrchTrace :=
  match configureWebsiteBucket putPolicyR with
  | some e => { ranPolicy := true, ranPlanBuild := false, ranUpload := false, outcome := .called (some e) }
  | none =>
    match uploadDirToS3 sep rootPath dirSearchPattern glob fs execR with
    | (ranUp, .called (some e)) => { ranPolicy := true, ranPlanBuild := true, ranUpload := ranUp, outcome := .called (some e) }
    | (ranUp, .called none) => { ranPolicy := true, ranPlanBuild := true, ranUpload := ranUp, outcome := .notCalled }
    | (ranUp, .crashed) => { ranPolicy := true, ranPlanBuild := true, ranUpload := ranUp, outcome := .crashed }
    | (ranUp, .notCalled) => { ranPolicy := true, ranPlanBuild := true, ranUpload := ranUp, outcome := .notCalled }

/-- The two bounded phases of `uploadDirToS3`: `async.mapLimit` stat/translate
calls while the plan is building, then `async.eachLimit` remote writes. -/
inductive SyncPhase
  | planning
  | uploading
deriving DecidableEq

/-- Counting abstraction of one `uploadDirToS3` run: how many stat/translate
operations are still pending or in flight, and likewise for remote writes. -/
structure SyncState where
  phase : SyncPhase
  statPending : Nat
  statInFlight : Nat
  uploadPending : Nat
  uploadInFlight : Nat
deriving DecidableEq

/-- Scheduling behaviour of `uploadDirToS3` (lines 129-137 of src/lib.js):
`async.mapLimit` dispatches a stat/translate operation only while fewer than
`MAX_PARALLEL` are outstanding; its final callback — which starts
`async.eachLimit` — fires only once every operation has been dispatched and
completed; `eachLimit` likewise dispatches a remote write only while fewer
than `MAX_PARALLEL` are outstanding. No constructor touches the stat counters
after `beginUpload`, mirroring that plan building has fully finished. -/
inductive SyncStep : SyncState → SyncState → Prop
  | dispatchStat (sp si up ui : Nat) (hlim : si < MAX_PARALLEL) (hp : 0 < sp) :
      SyncStep ⟨.planning, sp, si, up, ui⟩ ⟨.planning, sp - 1, si + 1, up, ui⟩
  | completeStat (sp si up ui : Nat) :
      SyncStep ⟨.planning, sp, si + 1, up, ui⟩ ⟨.planning, sp, si, up, ui⟩
  | beginUpload (up ui : Nat) :
      SyncStep ⟨.planning, 0, 0, up, ui⟩ ⟨.uploading, 0, 0, up, ui⟩
  | dispatchWrite (sp si up ui : Nat) (hlim : ui < MAX_PARALLEL) (hp : 0 < up) :
      SyncStep ⟨.uploading, sp, si, up, ui⟩ ⟨.uploading, sp, si, up - 1, ui + 1⟩
  | completeWrite (sp si up ui : Nat) :
      SyncStep ⟨.uploading, sp, si, up, ui + 1⟩ ⟨.uploading, sp, si, up, ui⟩

/-- Start of a `uploadDirToS3` run: `nStats` matched entries to stat, `nTasks`
plan entries to write, nothing dispatched yet. -/
def syncInit (nStats nTasks : Nat) : SyncState :=
  ⟨.planning, nStats, 0, nTasks, 0⟩

/-- State of one `async.eachLimit(tasks, MAX_PARALLEL, iteratee, done)` run
(line 135 of src/lib.js). `pending` are tasks not yet handed to the iteratee,
in list order; `dispatched` records every task ever handed to it; `inFlight`
are dispatched tasks whose callback has not fired; `succeeded` are tasks whose
write completed without error (the remote objects already written);
`errorsSeen` are the iteratee errors in completion order; `result` is the
final callback: not yet called, called with success, or called with an
error. -/
structure ExecState where
  pending : List (Option UploadTask)
  dispatched : List (Option UploadTask)
  inFlight : List (Option UploadTask)
  succeeded : List (Option UploadTask)
  errorsSeen : List String
  result : Option (Option String)
deriving DecidableEq

/-- Scheduling behaviour of `async.eachLimit` at limit `MAX_PARALLEL`, with
`writer` giving each task's write outcome (`none` = success). Dispatch takes
the next pending task, only while fewer than `MAX_PARALLEL` are in flight and
no error has been reported (after an error `eachLimit` starts no further
iteratee). A successful completion fires the final callback with success when
it was the last outstanding task; a failed completion fires the final callback
with that error unless it was already called — so later outcomes are never
reported further. -/
inductive ExecStep (writer : Option UploadTask → Option String) : ExecState → ExecState → Prop
  | dispatch (t : Option UploadTask) (ts d i su er : List _)
      (hlim : i.length < MAX_PARALLEL) :
      ExecStep writer ⟨t :: ts, d, i, su, er, none⟩ ⟨ts, d ++ [t], i ++ [t], su, er, none⟩
  | completeOk (p d i su : List _) (er : List String) (res : Option (Option String))
      (t : Option UploadTask) (hmem : t ∈ i) (hw : writer t = none) :
      ExecStep writer ⟨p, d, i, su, er, res⟩
        ⟨p, d, i.erase t, su ++ [t], er,
         if res = none ∧ p = [] ∧ i.erase t = [] then some none else res⟩
  | completeErr (p d i su : List _) (er : List String) (res : Option (Option String))
      (t : Option UploadTask) (e : String) (hmem : t ∈ i) (hw : writer t = some e) :
      ExecStep writer ⟨p, d, i, su, er, res⟩
        ⟨p, d, i.erase t, su, er ++ [e],
         if res = none then some (some e) else res⟩

/-- Start of an `async.eachLimit` run over `tasks`. -/
def execInit (tasks : List (Option UploadTask)) : ExecState :=
  ⟨tasks, [], [], [], [], none⟩

/-- Inductive invariant of `ExecStep` runs started from `execInit tasks`:
dispatch only consumes the original list in order; a success result means
everything finished with no error ever seen; the final callback, once fired
with an error, carries the first error that completed. -/
def ExecInv (tasks : List (Option UploadTask)) (s : ExecState) : Prop :=
  s.dispatched ++ s.pending = tasks ∧
  (s.result = some none → s.inFlight = [] ∧ s.pending = [] ∧ s.errorsSeen = []) ∧
  (∀ e, s.errorsSeen.head? = some e → s.result = some (some e)) ∧
  (s.errorsSeen = [] → s.result = none ∨ s.result = some none)

theorem chopLeading_append (xs ys : List Char) : chopLeading xs (xs ++ ys) = some ys := by
  induction xs with
  | nil => rfl
  | cons x xs ih => simp [chopLeading, ih]

theorem pathRelative_under (sep fromP rest : String) (hsep : 0 < sep.length) :
    pathRelative sep fromP (fromP ++ sep ++ rest) = rest := by
  have hne : fromP ≠ fromP ++ sep ++ rest := by
    intro h
    have := congrArg String.length h
    simp [String.length_append] at this
    omega
  have hdata : (fromP ++ sep ++ rest).data = (fromP.data ++ sep.data) ++ rest.data := by
    simp [String.data_append]
  unfold pathRelative
  rw [if_neg hne, hdata, chopLeading_append]

theorem mapTasks_ok (sep rootPath : String) (fs : String → Except String Stat) :
    ∀ paths : List String, (∀ p ∈ paths, ∃ st, fs p = Except.ok st) →
      mapTasks sep rootPath fs paths = PlanResult.ok (paths.map (taskForPath sep rootPath fs)) := by
  intro paths
  induction paths with
  | nil => intro _; rfl
  | cons p ps ih =>
    intro h
    obtain ⟨st, hst⟩ := h p (by simp)
    have ihs := ih fun q hq => h q (by simp [hq])
    cases hfile : st.isFile <;>
      simp [mapTasks, makeLocalTask, taskForPath, hst, hfile, ihs]

theorem taskForPath_count (sep rootPath : String) (fs : String → Except String Stat) :
    ∀ paths : List String,
      ((paths.map (taskForPath sep rootPath fs)).filterMap id).length = countRegularFiles fs paths := by
  intro paths
  induction paths with
  | nil => rfl
  | cons p ps ih =>
    cases hfs : fs p with
    | error e =>
      simpa [taskForPath, countRegularFiles, hfs, List.filter_cons] using ih
    | ok st =>
      cases hfile : st.isFile <;>
        simpa [taskForPath, countRegularFiles, hfs, hfile, List.filter_cons] using ih

theorem execInv_step (writer : Option UploadTask → Option String)
    (tasks : List (Option UploadTask)) (s u : ExecState)
    (hs : ExecInv tasks s) (hstep : ExecStep writer s u) : ExecInv tasks u := by
  obtain ⟨hsplit, hok, herr1, herr2⟩ := hs
  cases hstep with
  | dispatch t ts d i su er hlim =>
    refine ⟨by simpa using hsplit, by simp, ?_, ?_⟩
    · intro e he
      have := herr1 e he
      simp at this
    · intro _
      simp
  | completeOk p d i su er res t hmem hw =>
    by_cases hc : res = none ∧ p = [] ∧ i.erase t = []
    · obtain ⟨hres, hp, hi⟩ := hc
      refine ⟨by simpa [hp] using hsplit, ?_, ?_, ?_⟩
      · intro _
        have her : er = [] := by
          cases her : er with
          | nil => rfl
          | cons e0 er0 =>
            have := herr1 e0 (by simp [her])
            simp [hres] at this
        simp [hres, hp, hi, her]
      · intro e he
        have := herr1 e he
        simp [hres] at this
      · intro _
        simp [hres, hp, hi]
    · refine ⟨by simpa using hsplit, ?_, ?_, ?_⟩
      · intro hres
        simp only [if_neg hc] at hres
        have := hok hres
        exact absurd (this.1 ▸ hmem) (List.not_mem_nil t)
      · intro e he
        have h1 : res = some (some e) := herr1 e he
        change (if res = none ∧ p = [] ∧ i.erase t = [] then some none else res) = some (some e)
        rw [h1]
        simp
      · intro her
        have := herr2 her
        simp only [if_neg hc]
        exact this
  | completeErr p d i su er res t e hmem hw =>
    by_cases hres : res = none
    · have her : er = [] := by
        cases her : er with
        | nil => rfl
        | cons e0 er0 =>
          have := herr1 e0 (by simp [her])
          simp [hres] at this
      refine ⟨by simpa using hsplit, ?_, ?_, ?_⟩
      · intro hcontra
        simp [hres] at hcontra
      · intro e1 he1
        simp [her] at he1
        simp [hres, he1]
      · intro hcontra
        simp [her] at hcontra
    · have hresne : ¬ res = none := hres
      refine ⟨by simpa using hsplit, ?_, ?_, ?_⟩
      · intro hcontra
        simp only [if_neg hresne] at hcontra
        have := hok hcontra
        exact absurd (this.1 ▸ hmem) (List.not_mem_nil t)
      · intro e1 he1
        cases her : er with
        | nil =>
          have := herr2 her
          rcases this with h1 | h1
          · exact absurd h1 hresne
          · have := hok h1
            exact absurd (this.1 ▸ hmem) (List.not_mem_nil t)
        | cons e0 er0 =>
          have h0 := herr1 e0 (by simp [her])
          have heq : e1 = e0 := by
            simp [her] at he1
            exact he1.symm
          simp only [if_neg hresne]
          rw [heq]
          exact h0
      · intro hcontra
        simp at hcontra

/-- States reachable by the bounded executor from the start of a run. -/
theorem execInv_reachable (writer : Option UploadTask → Option String)
    (tasks : List (Option UploadTask)) (s : ExecState)
    (h : Relation.ReflTransGen (ExecStep writer) (execInit tasks) s) : ExecInv tasks s := by
  induction h with
  | refl =>
    refine ⟨by simp [execInit], by simp [execInit], ?_, ?_⟩
    · intro e he
      simp [execInit] at he
    · intro _
      simp [execInit]
  | tail hsteps hstep ih => exact execInv_step writer tasks _ _ ih hstep

/-- Filesystem stub whose every entry stats as a directory. -/
def fsAllDirs : String → Except String Stat := fun _ => Except.ok ⟨false⟩

/-- Filesystem stub whose every entry stats as a regular file. -/
def fsAllFiles : String → Except String Stat := fun _ => Except.ok ⟨true⟩

/-- Filesystem stub whose every lstat fails. -/
def fsAllBroken : String → Except String Stat := fun _ => Except.error "EACCES"

/-- Glob stub returning a fixed match list. -/
def globFixed (paths : List String) : String → Except String (List String) :=
  fun _ => Except.ok paths

/-- The claim of C1 fails on the code: `async.mapLimit` keeps one result slot
per matched path, so the skip value of a non-file entry is retained as an
`undefined` element of the returned plan rather than omitted, and the plan for
a single directory has one entry while the matched set holds zero regular
files. -/
theorem c1_counterexample :
    buildLocalExecutionPlan "/" "/site" "**" (globFixed ["/site/img"]) fsAllDirs
        = PlanResult.ok [none] ∧
    countRegularFiles fsAllDirs ["/site/img"] = 0 ∧
    ([(none : Option UploadTask)].length = 0 → False) := by
  refine ⟨rfl, rfl, ?_⟩
  intro h
  simp at h

/-- C1, amended: when every stat succeeds, `buildLocalExecutionPlan` returns
one entry per matched path in match order — `some` task exactly for the
regular files, `none` (the retained skip placeholder, filtered only later by
the executor) for every other entry — so the number of file tasks (not of
plan entries) equals the number of regular files in the matched set. -/
theorem c1_task_iff_regular_file (sep rootPath searchPattern : String)
    (fs : String → Except String Stat) (paths : List String)
    (h : ∀ p ∈ paths, ∃ st, fs p = Except.ok st) :
    buildLocalExecutionPlan sep rootPath searchPattern (globFixed paths) fs
        = PlanResult.ok (paths.map (taskForPath sep rootPath fs)) ∧
    (paths.map (taskForPath sep rootPath fs)).length = paths.length ∧
    ((paths.map (taskForPath sep rootPath fs)).filterMap id).length
        = countRegularFiles fs paths := by
  refine ⟨?_, by simp, taskForPath_count sep rootPath fs paths⟩
  unfold buildLocalExecutionPlan globFixed
  exact mapTasks_ok sep rootPath fs paths h

theorem c1_task_iff_regular_file_witness :
    (∀ p ∈ ["/site/index.html", "/site/img"], ∃ st, fsAllFiles p = Except.ok st) ∧
    (buildLocalExecutionPlan "/" "/site" "**" (globFixed ["/site/index.html", "/site/img"]) fsAllFiles
        = PlanResult.ok (["/site/index.html", "/site/img"].map (taskForPath "/" "/site" fsAllFiles)) ∧
    (["/site/index.html", "/site/img"].map (taskForPath "/" "/site" fsAllFiles)).length = 2 ∧
    ((["/site/index.html", "/site/img"].map (taskForPath "/" "/site" fsAllFiles)).filterMap id).length
        = countRegularFiles fsAllFiles ["/site/index.html", "/site/img"]) :=
  ⟨fun _ _ => ⟨⟨true⟩, rfl⟩,
   c1_task_iff_regular_file "/" "/site" "**" fsAllFiles ["/site/index.html", "/site/img"]
     (fun _ _ => ⟨⟨true⟩, rfl⟩)⟩

/-- C2: in every state reachable by the two-phase bounded scheduler of
`uploadDirToS3`, at most `MAX_PARALLEL` (25) stat/translate operations and at
most `MAX_PARALLEL` remote writes are simultaneously outstanding, no remote
write is outstanding while the plan-building phase runs, and once the upload
phase has begun every stat operation has been dispatched and completed — the
two phases do not overlap, whatever the input sizes. -/
theorem c2_concurrency_bound (nStats nTasks : Nat) (s : SyncState)
    (h : Relation.ReflTransGen SyncStep (syncInit nStats nTasks) s) :
    s.statInFlight ≤ MAX_PARALLEL ∧ s.uploadInFlight ≤ MAX_PARALLEL ∧
    (s.phase = SyncPhase.planning → s.uploadInFlight = 0) ∧
    (s.phase = SyncPhase.uploading → s.statInFlight = 0 ∧ s.statPending = 0) := by
  induction h with
  | refl => simp [syncInit, MAX_PARALLEL]
  | tail hsteps hstep ih =>
    obtain ⟨ih1, ih2, ih3, ih4⟩ := ih
    cases hstep with
    | dispatchStat sp si up ui hlim hp =>
      refine ⟨by simpa using hlim, by simpa using ih2, ?_, ?_⟩
      · intro _
        simpa using ih3 rfl
      · intro hph
        simp at hph
    | completeStat sp si up ui =>
      refine ⟨by simp at ih1 ⊢; omega, by simpa using ih2, ?_, ?_⟩
      · intro _
        simpa using ih3 rfl
      · intro hph
        simp at hph
    | beginUpload up ui =>
      refine ⟨by simp [MAX_PARALLEL], by simpa using ih2, ?_, ?_⟩
      · intro hph
        simp at hph
      · intro _
        simp
    | dispatchWrite sp si up ui hlim hp =>
      refine ⟨by simpa using ih1, by simpa using hlim, ?_, ?_⟩
      · intro hph
        simp at hph
      · intro _
        simpa using ih4 rfl
    | completeWrite sp si up ui =>
      refine ⟨by simpa using ih1, by simp at ih2 ⊢; omega, ?_, ?_⟩
      · intro hph
        simp at hph
      · intro _
        simpa using ih4 rfl

theorem c2_concurrency_bound_witness :
    (syncInit 100 100).statInFlight ≤ MAX_PARALLEL ∧
    (syncInit 100 100).uploadInFlight ≤ MAX_PARALLEL ∧
    ((syncInit 100 100).phase = SyncPhase.planning → (syncInit 100 100).uploadInFlight = 0) ∧
    ((syncInit 100 100).phase = SyncPhase.uploading →
      (syncInit 100 100).statInFlight = 0 ∧ (syncInit 100 100).statPending = 0) :=
  c2_concurrency_bound 100 100 (syncInit 100 100) Relation.ReflTransGen.refl

/-- C3: along every reachable schedule of the bounded executor, once some
remote write has failed the final callback never reports success, and
whatever error the final callback eventually carries is the error of the
first failing completion; moreover no task is ever dispatched more often
than it occurs in the input list (no retry) and any further step only extends
the list of successfully written objects (no rollback). -/
theorem c3_first_failure_surfaced (writer : Option UploadTask → Option String)
    (tasks : List (Option UploadTask)) (s : ExecState)
    (h : Relation.ReflTransGen (ExecStep writer) (execInit tasks) s) :
    (s.errorsSeen ≠ [] → s.result ≠ some none ∧
      ∀ e, s.result = some (some e) → s.errorsSeen.head? = some e) ∧
    (∀ t, s.dispatched.count t ≤ tasks.count t) ∧
    (∀ u, ExecStep writer s u → ∃ w, u.succeeded = s.succeeded ++ w) := by
  obtain ⟨hsplit, hok, herr1, herr2⟩ := execInv_reachable writer tasks s h
  refine ⟨?_, ?_, ?_⟩
  · intro hne
    constructor
    · intro hres
      exact hne (hok hres).2.2
    · intro e hres
      cases hh : s.errorsSeen.head? with
      | none => exact absurd (List.head?_eq_none_iff.mp hh) hne
      | some e0 =>
        have h0 := herr1 e0 hh
        rw [hres] at h0
        have : e = e0 := by
          injection h0 with h1
          injection h1
        rw [this]
  · intro t
    rw [← hsplit, List.count_append]
    exact Nat.le_add_right _ _
  · intro u hstep
    cases hstep with
    | dispatch t ts d i su er hlim => exact ⟨[], by simp⟩
    | completeOk p d i su er res t hmem hw => exact ⟨[t], rfl⟩
    | completeErr p d i su er res t e hmem hw => exact ⟨[], by simp⟩

/-- Writer stub whose every write fails. -/
def c3Writer : Option UploadTask → Option String := fun _ => some "boom"

/-- Executor state after dispatching the single task of a one-task run and
seeing its write fail. -/
def c3End : ExecState := ⟨[], [none], [], [], ["boom"], some (some "boom")⟩

theorem c3_first_failure_surfaced_witness :
    ((c3End.errorsSeen ≠ [] → c3End.result ≠ some none ∧
      ∀ e, c3End.result = some (some e) → c3End.errorsSeen.head? = some e) ∧
    (∀ t, c3End.dispatched.count t ≤ ([none] : List (Option UploadTask)).count t) ∧
    (∀ u, ExecStep c3Writer c3End u → ∃ w, u.succeeded = c3End.succeeded ++ w)) :=
  c3_first_failure_surfaced c3Writer [none] c3End
    (Relation.ReflTransGen.tail
      (Relation.ReflTransGen.tail Relation.ReflTransGen.refl
        (ExecStep.dispatch none [] [] [] [] [] (by decide)))
      (ExecStep.completeErr [] [none] [none] [] [] none none "boom" (by decide) rfl))

/-- C4 fails on the code at the all-success input: the phases do run in order
policy, plan, upload, and any phase error is surfaced to `done` with the later
phases skipped, but when all three phases succeed the callback chain of
`s3WebsiteFromDirectory` only logs a debug line and never invokes `done` — the
terminal success is not surfaced to the caller. -/
theorem c4_success_never_surfaced :
    s3WebsiteFromDirectory "/" "/site" "**" (globFixed []) fsAllFiles (fun _ => none) none
        = ⟨true, true, true, CbOutcome.notCalled⟩ ∧
    s3WebsiteFromDirectory "/" "/site" "**" (globFixed []) fsAllFiles (fun _ => none) (some "EPOLICY")
        = ⟨true, false, false, CbOutcome.called (some "EPOLICY")⟩ ∧
    s3WebsiteFromDirectory "/" "/site" "**" (fun _ => Except.error "EGLOB") fsAllFiles (fun _ => none) none
        = ⟨true, true, false, CbOutcome.called (some "EGLOB")⟩ ∧
    s3WebsiteFromDirectory "/" "/site" "**" (globFixed []) fsAllFiles (fun _ => some "EWRITE") none
        = ⟨true, true, true, CbOutcome.called (some "EWRITE")⟩ :=
  ⟨rfl, rfl, rfl, rfl⟩

/-- Single statement inside the `Statement` array of a policy document. -/
def statementOf (doc : JVal) : JVal :=
  match jLookup doc "Statement" with
  | some (.arr [s]) => s
  | _ => .arr []

/-- C5: for every bucket name, the policy document built by
`createAnonReadStatement` carries exactly the top-level fields `Version` and
`Statement`, its single statement carries exactly the fields `Sid`, `Effect`,
`Principal`, `Action`, `Resource`, and the values are `"2012-10-17"`,
`"AddPerm"`, `"Allow"`, `"*"`, `["s3:GetObject"]` and the two bucket ARN
patterns, exactly as claimed. -/
theorem c5_policy_document_exact (bucketName : String) :
    fieldNames (createAnonReadStatement bucketName) = ["Version", "Statement"] ∧
    jLookup (createAnonReadStatement bucketName) "Version" = some (JVal.str "2012-10-17") ∧
    fieldNames (statementOf (createAnonReadStatement bucketName))
        = ["Sid", "Effect", "Principal", "Action", "Resource"] ∧
    jLookup (statementOf (createAnonReadStatement bucketName)) "Sid" = some (JVal.str "AddPerm") ∧
    jLookup (statementOf (createAnonReadStatement bucketName)) "Effect" = some (JVal.str "Allow") ∧
    jLookup (statementOf (createAnonReadStatement bucketName)) "Principal" = some (JVal.str "*") ∧
    jLookup (statementOf (createAnonReadStatement bucketName)) "Action"
        = some (JVal.arr [JVal.str "s3:GetObject"]) ∧
    jLookup (statementOf (createAnonReadStatement bucketName)) "Resource"
        = some (JVal.arr
            [JVal.str ("arn:aws:s3:::" ++ bucketName ++ "/*"),
             JVal.str ("arn:aws:s3:::" ++ bucketName ++ "/**/*")]) :=
  ⟨rfl, rfl, rfl, rfl, rfl, rfl, rfl, rfl⟩

/-- C6 is what the source intends but not what it does: on a failing lstat the
callback of `makeLocalTask` never reads `err` and dereferences the `undefined`
stat record, so the whole plan-building run dies with an uncaught TypeError
instead of returning the stat error through `done` — no `PlanResult.err`
value is ever produced from a stat failure. -/
theorem c6_stat_error_crashes_not_reported :
    buildLocalExecutionPlan "/" "/site" "**" (globFixed ["/site/broken"]) fsAllBroken
        = PlanResult.crash ∧
    ∀ e, PlanResult.crash ≠ PlanResult.err e :=
  ⟨rfl, fun _ h => PlanResult.noConfusion h⟩

/-- C7: a task whose `remotePath` is the empty string completes as an
immediate no-op success with no remote call, and every remote call the
executor ever issues carries a non-empty key. -/
theorem c7_empty_remotePath_noop :
    (∀ (bucketName : String) (t : UploadTask), t.remotePath = "" →
      executeTaskOnS3 bucketName (some t) = ExecTaskResult.completed none []) ∧
    (∀ (bucketName : String) (task : Option UploadTask) (c : UploadCall),
      c ∈ uploadsOf (executeTaskOnS3 bucketName task) → c.Key ≠ "") := by
  constructor
  · intro b t h
    simp [executeTaskOnS3, h]
  · intro b task c hc
    cases task with
    | none => simp [executeTaskOnS3, uploadsOf] at hc
    | some t =>
      by_cases h : t.remotePath = "" <;> simp [executeTaskOnS3, uploadsOf, h] at hc

theorem c7_empty_remotePath_noop_witness :
    ((⟨"file", "/site", ""⟩ : UploadTask).remotePath = "") ∧
    executeTaskOnS3 "my-bucket" (some ⟨"file", "/site", ""⟩) = ExecTaskResult.completed none [] :=
  ⟨rfl, c7_empty_remotePath_noop.1 "my-bucket" ⟨"file", "/site", ""⟩ rfl⟩

/-- C8 is what the source intends but not what it does: for a real file task
the hoisted local `mime` variable shadows the MIME module, so
`mime.lookup(task.localPath)` reads `undefined` and throws before `s3.upload`
is reached — the executor crashes with no remote create-object call instead of
resolving a content type and issuing the write. -/
theorem c8_mime_shadowing_crashes_upload :
    executeTaskOnS3 "my-bucket" (some ⟨"file", "/site/index.html", "index.html"⟩)
        = ExecTaskResult.crash [] ∧
    ∀ (err : Option String) (uploads : List UploadCall),
      ExecTaskResult.crash ([] : List UploadCall) ≠ ExecTaskResult.completed err uploads :=
  ⟨rfl, fun _ _ h => ExecTaskResult.noConfusion h⟩

/-- The claim of C9 fails on the code: `path.relative` keeps the host
platform's separator, so on a Windows host (separator `\`) the task built for
`C:\site\css\style.css` under root `C:\site` gets remote key `css\style.css`,
not the forward-slash form `css/style.css`. -/
theorem c9_counterexample :
    makeLocalTask "\\" "C:\\site" "C:\\site\\css\\style.css" (Except.ok ⟨true⟩)
        = TaskResult.ok (some ⟨"file", "C:\\site\\css\\style.css", "css\\style.css"⟩) ∧
    ("css\\style.css" : String) ≠ "css/style.css" := by
  refine ⟨by decide, by decide⟩

/-- C9, amended: for every task produced by the path translator, `remotePath`
is the path of `localPath` relative to `rootPath` expressed with the host
platform's path separator — forward slashes on POSIX hosts only, not
independently of the platform. -/
theorem c9_remotePath_platform_separator (sep rootPath rest : String) (hsep : 0 < sep.length) :
    makeLocalTask sep rootPath (rootPath ++ sep ++ rest) (Except.ok ⟨true⟩)
        = TaskResult.ok (some ⟨"file", rootPath ++ sep ++ rest, rest⟩) := by
  simp [makeLocalTask, pathRelative_under sep rootPath rest hsep]

theorem c9_remotePath_platform_separator_witness :
    (0 < ("/" : String).length) ∧
    makeLocalTask "/" "/site" ("/site" ++ "/" ++ "index.html") (Except.ok ⟨true⟩)
        = TaskResult.ok (some ⟨"file", "/site" ++ "/" ++ "index.html", "index.html"⟩) :=
  ⟨by decide, c9_remotePath_platform_separator "/" "/site" "index.html" (by decide)⟩

/-- C10: a missing (`undefined`) task value completes its callback at once
with no error and no remote call, so a plan made of skip placeholders for
non-file entries executes without any failure. -/
theorem c10_skip_placeholders_execute_ok :
    (∀ bucketName : String, executeTaskOnS3 bucketName none = ExecTaskResult.completed none []) ∧
    (∀ (bucketName : String) (plan : List (Option UploadTask)),
      (∀ x ∈ plan, x = none) →
      ∀ r ∈ runPlanTasks bucketName plan, r = ExecTaskResult.completed none []) := by
  constructor
  · intro b
    rfl
  · intro b plan hplan r hr
    simp [runPlanTasks] at hr
    obtain ⟨x, hx, hxr⟩ := hr
    rw [hplan x hx] at hxr
    rw [← hxr]
    rfl

theorem c10_skip_placeholders_execute_ok_witness :
    (∀ x ∈ ([none, none] : List (Option UploadTask)), x = none) ∧
    (∀ r ∈ runPlanTasks "my-bucket" [none, none], r = ExecTaskResult.completed none []) :=
  ⟨by decide, c10_skip_placeholders_execute_ok.2 "my-bucket" [none, none] (by decide)⟩
